import Mathlib

/-!
# Verification of the MH-Z19 CO2 sensor serial codec

Shallow embedding of `src/lib.rs`: bytes are `Nat` values with wrapping
arithmetic written explicitly as `% 256`, packets are `List Nat`, and the
fallible decoders return `Except MHZ19Error`.
-/

namespace MHZ19

/-- Eight-bit wrapping addition, modelling `u8::wrapping_add`. -/
def wadd8 (a b : Nat) : Nat := (a + b) % 256

/-- MH-Z19 commands, from `enum Command` in `src/lib.rs`. -/
inductive Command
  | ReadGasConcentration
  | CalibrateZero
  | CalibrateSpan
  | SetAutomaticBaselineCorrection
  | SetSensorDetectionRange
deriving DecidableEq, Repr

/-- Embeds `Command::get_command_value`: the byte value of each command. -/
def Command.get_command_value : Command → Nat
  | .ReadGasConcentration => 0x86
  | .CalibrateZero => 0x87
  | .CalibrateSpan => 0x88
  | .SetAutomaticBaselineCorrection => 0x79
  | .SetSensorDetectionRange => 0x99

/-- Embeds `checksum`: `1u8.wrapping_add(0xff - fold of wrapping_add over the span)`.
The inner subtraction `0xff - sum` cannot underflow since the folded sum is
below 256, so plain `Nat` subtraction models it exactly. -/
def checksum (payload : List Nat) : Nat :=
  (1 + (0xff - payload.foldl wadd8 0)) % 256

/-- Embeds `get_command_with_bytes34`: build the 9-byte packet
`[0xFF, device_number, command, byte3, byte4, 0, 0, 0, 0]` and then set
byte 8 to the checksum of bytes 1 through 7. -/
def get_command_with_bytes34 (command : Command) (device_number byte3 byte4 : Nat) :
    List Nat :=
  let ret : List Nat :=
    [0xFF, device_number, command.get_command_value, byte3, byte4, 0x00, 0x00, 0x00, 0x00]
  ret.set 8 (checksum ((ret.drop 1).take 7))

/-- Embeds `read_gas_concentration`. -/
def read_gas_concentration (device_number : Nat) : List Nat :=
  get_command_with_bytes34 .ReadGasConcentration device_number 0x00 0x00

/-- Embeds `set_automatic_baseline_correction`. -/
def set_automatic_baseline_correction (device_number : Nat) (enabled : Bool) : List Nat :=
  get_command_with_bytes34 .SetAutomaticBaselineCorrection device_number
    (if enabled then 0xA0 else 0x00) 0x00

/-- Embeds `calibrate_span_point`: byte3 is `((value & 0xff00) >> 8) as u8`, byte4 is
`(value & 0xff) as u8`; the `as u8` casts are the trailing `% 256`. -/
def calibrate_span_point (device_number value : Nat) : List Nat :=
  get_command_with_bytes34 .CalibrateSpan device_number
    (((value &&& 0xff00) >>> 8) % 256) ((value &&& 0xff) % 256)

/-- Embeds `set_detection_range`: same big-endian split as `calibrate_span_point`. -/
def set_detection_range (device_number value : Nat) : List Nat :=
  get_command_with_bytes34 .SetSensorDetectionRange device_number
    (((value &&& 0xff00) >>> 8) % 256) ((value &&& 0xff) % 256)

/-- Embeds `calibrate_zero_point`. -/
def calibrate_zero_point (device_number : Nat) : List Nat :=
  get_command_with_bytes34 .CalibrateZero device_number 0x00 0x00

/-- Embeds `enum MHZ19Error`, with the payload fields of each Rust variant. -/
inductive MHZ19Error
  | WrongPacketLength (found : Nat)
  | WrongChecksum (expected found : Nat)
  | WrongStartByte (found : Nat)
  | WrongPacketType (expected found : Nat)
deriving DecidableEq, Repr

/-- Embeds `parse_payload`: check length, then start byte, then checksum; on success
return bytes 1 through 7. The slice `&packet[1..8]` is `(drop 1).take 7`;
`packet[0]` and `packet[8]` are read after `len == 9` is established, so the
`headD`/`getD` defaults are never used. -/
def parse_payload (packet : List Nat) : Except MHZ19Error (List Nat) :=
  if packet.length ≠ 9 then
    .error (.WrongPacketLength packet.length)
  else
    let header := packet.headD 0
    if header ≠ 0xFF then
      .error (.WrongStartByte header)
    else
      let payload := (packet.drop 1).take 7
      let found_checksum := packet.getD 8 0
      let payload_checksum := checksum payload
      if found_checksum ≠ payload_checksum then
        .error (.WrongChecksum payload_checksum found_checksum)
      else
        .ok payload

/-- Embeds `parse_gas_contentration_ppm` (name as in the source): delegate to
`parse_payload`, check the echoed command byte, then decode the big-endian
concentration. -/
def parse_gas_contentration_ppm (packet : List Nat) : Except MHZ19Error Nat :=
  match parse_payload packet with
  | .error e => .error e
  | .ok payload =>
    if payload.headD 0 ≠ Command.ReadGasConcentration.get_command_value then
      .error (.WrongPacketType Command.ReadGasConcentration.get_command_value
        (payload.headD 0))
    else
      .ok (256 * payload.getD 1 0 + payload.getD 2 0)

/-- The packet invariant of the spec: 9 bytes, start byte `0xFF`, reserved
byte 7 zero, and byte 8 the checksum of bytes 1 through 7. -/
def packet_invariant (p : List Nat) : Prop :=
  p.length = 9 ∧ p.getD 0 0 = 0xFF ∧ p.getD 7 0 = 0x00 ∧
    p.getD 8 0 = checksum ((p.drop 1).take 7)

instance (p : List Nat) : Decidable (packet_invariant p) := by
  unfold packet_invariant; infer_instance

/-- Out-of-bounds-aware variant of `parse_payload`: every buffer access that
the Rust code performs by indexing (`packet[0]`, `&packet[1..8]`,
`packet[8]`) is done through a bounds-checked lookup, and `none` is returned
if any access would be out of bounds (the shallow image of a panic). -/
def parse_payload_checked (packet : List Nat) :
    Option (Except MHZ19Error (List Nat)) :=
  if packet.length ≠ 9 then
    some (.error (.WrongPacketLength packet.length))
  else
    match packet[0]? with
    | none => none
    | some header =>
      if header ≠ 0xFF then
        some (.error (.WrongStartByte header))
      else if 8 ≤ packet.length then
        let payload := (packet.drop 1).take 7
        match packet[8]? with
        | none => none
        | some found_checksum =>
          let payload_checksum := checksum payload
          if found_checksum ≠ payload_checksum then
            some (.error (.WrongChecksum payload_checksum found_checksum))
          else
            some (.ok payload)
      else none

/-- Out-of-bounds-aware variant of `parse_gas_contentration_ppm`: the payload
accesses `payload[0]`, `payload[1]`, `payload[2]` are bounds-checked, in the
order the Rust code performs them. -/
def parse_gas_contentration_ppm_checked (packet : List Nat) :
    Option (Except MHZ19Error Nat) :=
  match parse_payload_checked packet with
  | none => none
  | some (.error e) => some (.error e)
  | some (.ok payload) =>
    match payload[0]? with
    | none => none
    | some p0 =>
      if p0 ≠ Command.ReadGasConcentration.get_command_value then
        some (.error (.WrongPacketType Command.ReadGasConcentration.get_command_value p0))
      else
        match payload[1]?, payload[2]? with
        | some p1, some p2 => some (.ok (256 * p1 + p2))
        | _, _ => none

/-! ## Helper lemmas -/

/-- Unfolding of the shared packet builder. -/
theorem get_command_with_bytes34_eq (c : Command) (d b3 b4 : Nat) :
    get_command_with_bytes34 c d b3 b4 =
      [0xFF, d, c.get_command_value, b3, b4, 0x00, 0x00, 0x00,
        checksum [d, c.get_command_value, b3, b4, 0x00, 0x00, 0x00]] := rfl

/-- The wrapping fold computes the list sum modulo 256. -/
theorem foldl_wadd8 (l : List Nat) : ∀ a : Nat, l.foldl wadd8 (a % 256) = (a + l.sum) % 256 := by
  induction l with
  | nil => intro a; simp
  | cons b t ih =>
    intro a
    have h1 : wadd8 (a % 256) b = (a + b) % 256 := by unfold wadd8; omega
    have h2 := ih (a + b)
    simp only [List.foldl_cons, List.sum_cons, h1, h2]
    omega

/-- Closed form of the checksum in terms of the list sum. -/
theorem checksum_eq_sum (l : List Nat) :
    checksum l = (1 + (0xff - l.sum % 256)) % 256 := by
  have h := foldl_wadd8 l 0
  simp only [Nat.zero_mod, Nat.zero_add] at h
  unfold checksum
  rw [h]

/-- The checksum is the additive inverse of the list sum modulo 256. -/
theorem sum_add_checksum (l : List Nat) : (l.sum + checksum l) % 256 = 0 := by
  rw [checksum_eq_sum]
  omega

/-- A list of length nine is a literal nine-element list. -/
theorem exists_nine (p : List Nat) (hl : p.length = 9) :
    ∃ a b c d e f g h i, p = [a, b, c, d, e, f, g, h, i] := by
  rcases p with _ | ⟨a, p⟩; · simp at hl
  rcases p with _ | ⟨b, p⟩; · simp at hl
  rcases p with _ | ⟨c, p⟩; · simp at hl
  rcases p with _ | ⟨d, p⟩; · simp at hl
  rcases p with _ | ⟨e, p⟩; · simp at hl
  rcases p with _ | ⟨f, p⟩; · simp at hl
  rcases p with _ | ⟨g, p⟩; · simp at hl
  rcases p with _ | ⟨h, p⟩; · simp at hl
  rcases p with _ | ⟨i, p⟩; · simp at hl
  rcases p with _ | ⟨j, p⟩
  · exact ⟨a, b, c, d, e, f, g, h, i, rfl⟩
  · simp at hl

/-- Evaluation of `parse_payload` on a literal nine-byte buffer. -/
theorem parse_payload_nine (a b c d e f g h i : Nat) :
    parse_payload [a, b, c, d, e, f, g, h, i] =
      if a ≠ 0xFF then .error (.WrongStartByte a)
      else if i ≠ checksum [b, c, d, e, f, g, h] then
        .error (.WrongChecksum (checksum [b, c, d, e, f, g, h]) i)
      else .ok [b, c, d, e, f, g, h] := by
  simp [parse_payload]

/-- Parsing a freshly built command packet always succeeds and returns
bytes 1 through 7. -/
theorem parse_payload_encode (c : Command) (d b3 b4 : Nat) :
    parse_payload (get_command_with_bytes34 c d b3 b4) =
      .ok [d, c.get_command_value, b3, b4, 0x00, 0x00, 0x00] := by
  rw [get_command_with_bytes34_eq, parse_payload_nine]
  simp

/-- A successful parse forces the buffer length to be nine. -/
theorem parse_payload_ok_length (p payload : List Nat)
    (h : parse_payload p = .ok payload) : p.length = 9 := by
  by_contra hne
  simp [parse_payload, hne] at h

/-- A successful parse returns exactly bytes 1 through 7 of the buffer. -/
theorem parse_payload_ok_eq (p payload : List Nat)
    (h : parse_payload p = .ok payload) : payload = (p.drop 1).take 7 := by
  have h9 := parse_payload_ok_length p payload h
  rw [parse_payload, if_neg (by omega)] at h
  dsimp only at h
  split at h
  · exact absurd h (by simp)
  · split at h
    · exact absurd h (by simp)
    · exact (Except.ok.inj h).symm

/-- A successful parse forces byte 8 to equal the checksum of bytes 1-7. -/
theorem parse_payload_ok_checksum (p payload : List Nat)
    (h : parse_payload p = .ok payload) :
    p.getD 8 0 = checksum ((p.drop 1).take 7) := by
  have h9 := parse_payload_ok_length p payload h
  rw [parse_payload, if_neg (by omega)] at h
  dsimp only at h
  split at h
  · exact absurd h (by simp)
  · split at h
    · exact absurd h (by simp)
    · omega

/-- Bit 8 + i of the mask 0xff00 is bit i of the mask 0xff. -/
theorem testBit_ff00 (i : Nat) : Nat.testBit 0xff00 (8 + i) = Nat.testBit 0xff i := by
  have h : (0xff00 : Nat) = 0xff <<< 8 := by decide
  rw [h, Nat.testBit_shiftLeft]
  simp

/-- Masking the high byte then shifting equals shifting then masking. -/
theorem and_ff00_shiftRight (v : Nat) : (v &&& 0xff00) >>> 8 = (v >>> 8) &&& 0xff := by
  apply Nat.eq_of_testBit_eq
  intro i
  simp only [Nat.testBit_shiftRight, Nat.testBit_and]
  rw [testBit_ff00]

/-- Masking with 0xff is reduction modulo 256. -/
theorem and_ff (v : Nat) : v &&& 0xff = v % 256 := by
  have h := Nat.and_pow_two_sub_one_eq_mod v 8
  simpa using h

/-! ## Claim theorems -/

/-- C2: for every 7-byte span the checksum is `1 + (0xFF - s)` with `s` the
byte sum modulo 256 and the outer addition also wrapping modulo 256 (the
subtraction cannot underflow since `s < 256`); the checksum is deterministic
(equal inputs give equal outputs); and the three literal test vectors hold. -/
theorem checksum_spec (l : List Nat) (hl : l.length = 7) :
    checksum l = (1 + (0xff - l.sum % 256)) % 256 ∧
    (∀ l2 : List Nat, l2 = l → checksum l2 = checksum l) ∧
    checksum [0x01, 0x86, 0x00, 0x00, 0x00, 0x00, 0x00] = 0x79 ∧
    checksum [0x01, 0x88, 0x07, 0xD0, 0x00, 0x00, 0x00] = 0xA0 ∧
    checksum [0x86, 0x02, 0x60, 0x47, 0x00, 0x00, 0x00] = 0xD1 :=
  ⟨checksum_eq_sum l, fun _ h2 => by rw [h2], by decide, by decide, by decide⟩

/-- Witness for C2 at the concrete span `[0x01, 0x86, 0, 0, 0, 0, 0]`. -/
theorem checksum_spec_witness :
    ([0x01, 0x86, 0x00, 0x00, 0x00, 0x00, 0x00] : List Nat).length = 7 ∧
    checksum [0x01, 0x86, 0x00, 0x00, 0x00, 0x00, 0x00] =
      (1 + (0xff - ([0x01, 0x86, 0x00, 0x00, 0x00, 0x00, 0x00] : List Nat).sum % 256)) % 256 :=
  ⟨by decide, (checksum_spec [0x01, 0x86, 0x00, 0x00, 0x00, 0x00, 0x00] (by decide)).1⟩

/-- C3: every packet produced by any of the five encoders, for every u8
device number and every u16 or Bool parameter, satisfies the packet
invariant: length 9, byte0 = 0xFF, byte7 = 0, byte8 = checksum of bytes
1-7. (The encoders are total Lean functions into `List Nat`, mirroring that
encoding never fails and validates no ranges.) -/
theorem encoders_packet_invariant (d v : Nat) (b : Bool)
    (hd : d < 256) (hv : v < 65536) :
    packet_invariant (read_gas_concentration d) ∧
    packet_invariant (calibrate_zero_point d) ∧
    packet_invariant (calibrate_span_point d v) ∧
    packet_invariant (set_automatic_baseline_correction d b) ∧
    packet_invariant (set_detection_range d v) := by
  refine ⟨?_, ?_, ?_, ?_, ?_⟩ <;>
  · simp [packet_invariant, read_gas_concentration, calibrate_zero_point,
      calibrate_span_point, set_automatic_baseline_correction,
      set_detection_range, get_command_with_bytes34_eq]

/-- Witness for C3 at device 1 and value 0x07D0. -/
theorem encoders_packet_invariant_witness :
    (1 : Nat) < 256 ∧ (0x07D0 : Nat) < 65536 ∧
    packet_invariant (read_gas_concentration 1) :=
  ⟨by decide, by decide,
    (encoders_packet_invariant 1 0x07D0 true (by decide) (by decide)).1⟩

/-- C7: for every u8 device number and u16 value, `calibrate_span_point` and
`set_detection_range` put the big-endian split of the value into bytes 3 and
4 (byte3 the high byte `(value >>> 8) &&& 0xFF`, byte4 the low byte
`value &&& 0xFF`), with bytes 5 and 6 zero; and
`set_detection_range 1 0x07D0` has byte3 = 0x07 and byte4 = 0xD0. -/
theorem big_endian_split (d v : Nat) (hd : d < 256) (hv : v < 65536) :
    (calibrate_span_point d v).getD 3 0 = (v >>> 8) &&& 0xff ∧
    (calibrate_span_point d v).getD 4 0 = v &&& 0xff ∧
    (calibrate_span_point d v).getD 5 0 = 0 ∧
    (calibrate_span_point d v).getD 6 0 = 0 ∧
    (set_detection_range d v).getD 3 0 = (v >>> 8) &&& 0xff ∧
    (set_detection_range d v).getD 4 0 = v &&& 0xff ∧
    (set_detection_range d v).getD 5 0 = 0 ∧
    (set_detection_range d v).getD 6 0 = 0 ∧
    (set_detection_range 1 0x07D0).getD 3 0 = 0x07 ∧
    (set_detection_range 1 0x07D0).getD 4 0 = 0xD0 := by
  have h3 : ((v &&& 0xff00) >>> 8) % 256 = (v >>> 8) &&& 0xff := by
    rw [and_ff00_shiftRight, and_ff]
    omega
  have h4 : (v &&& 0xff) % 256 = v &&& 0xff := by
    rw [and_ff]
    omega
  unfold calibrate_span_point set_detection_range
  rw [get_command_with_bytes34_eq, get_command_with_bytes34_eq,
    get_command_with_bytes34_eq]
  exact ⟨h3, h4, rfl, rfl, h3, h4, rfl, rfl, by decide, by decide⟩

/-- Witness for C7 at device 1 and value 0x07D0. -/
theorem big_endian_split_witness :
    (1 : Nat) < 256 ∧ (0x07D0 : Nat) < 65536 ∧
    (calibrate_span_point 1 0x07D0).getD 3 0 = ((0x07D0 : Nat) >>> 8) &&& 0xff :=
  ⟨by decide, by decide, (big_endian_split 1 0x07D0 (by decide) (by decide)).1⟩

/-- C8: the command-to-byte mapping is fixed: byte2 of each encoder output is
0x86, 0x87, 0x88, 0x79, 0x99 respectively, for every u8 device number and
parameter value, and `read_gas_concentration 1` is the known literal packet. -/
theorem command_byte_mapping (d v : Nat) (b : Bool)
    (hd : d < 256) (hv : v < 65536) :
    (read_gas_concentration d).getD 2 0 = 0x86 ∧
    (calibrate_zero_point d).getD 2 0 = 0x87 ∧
    (calibrate_span_point d v).getD 2 0 = 0x88 ∧
    (set_automatic_baseline_correction d b).getD 2 0 = 0x79 ∧
    (set_detection_range d v).getD 2 0 = 0x99 ∧
    read_gas_concentration 1 =
      [0xFF, 0x01, 0x86, 0x00, 0x00, 0x00, 0x00, 0x00, 0x79] := by
  refine ⟨rfl, rfl, rfl, rfl, rfl, by decide⟩

/-- Witness for C8 at device 1 and value 2000. -/
theorem command_byte_mapping_witness :
    (1 : Nat) < 256 ∧ (2000 : Nat) < 65536 ∧
    (read_gas_concentration 1).getD 2 0 = 0x86 :=
  ⟨by decide, by decide, (command_byte_mapping 1 2000 true (by decide) (by decide)).1⟩

/-- C1 counterexample: at device number 1, parsing the encoded
read-gas-concentration packet succeeds but the payload's byte0 is the device
number 1, not the command code byte 0x86 — bytes 1-7 of the packet start
with the device number, and the command code sits at payload byte1. -/
theorem roundtrip_byte0_counterexample :
    (parse_payload (read_gas_concentration 1)).map (fun l => l.headD 0) =
      .ok 1 ∧
    (parse_payload (read_gas_concentration 1)).map (fun l => l.headD 0) ≠
      .ok Command.ReadGasConcentration.get_command_value := by
  refine ⟨rfl, fun h => ?_⟩
  have h2 : (1 : Nat) = Command.ReadGasConcentration.get_command_value :=
    Except.ok.inj h
  simp [Command.get_command_value] at h2

/-- C1 (amended): for every command among the five encoder operations, every
u8 device number and every parameter value, `parse_payload` applied to the
encoded 9-byte packet succeeds, and the returned payload's byte0 equals the
device number while byte1 equals the command's code byte (0x86 / 0x87 /
0x88 / 0x79 / 0x99 respectively). -/
theorem roundtrip_amended (d v : Nat) (b : Bool) (hd : d < 256) (hv : v < 65536) :
    (parse_payload (read_gas_concentration d)).map (fun l => (l.getD 0 0, l.getD 1 0)) =
      .ok (d, Command.ReadGasConcentration.get_command_value) ∧
    (parse_payload (calibrate_zero_point d)).map (fun l => (l.getD 0 0, l.getD 1 0)) =
      .ok (d, Command.CalibrateZero.get_command_value) ∧
    (parse_payload (calibrate_span_point d v)).map (fun l => (l.getD 0 0, l.getD 1 0)) =
      .ok (d, Command.CalibrateSpan.get_command_value) ∧
    (parse_payload (set_automatic_baseline_correction d b)).map
        (fun l => (l.getD 0 0, l.getD 1 0)) =
      .ok (d, Command.SetAutomaticBaselineCorrection.get_command_value) ∧
    (parse_payload (set_detection_range d v)).map (fun l => (l.getD 0 0, l.getD 1 0)) =
      .ok (d, Command.SetSensorDetectionRange.get_command_value) := by
  refine ⟨?_, ?_, ?_, ?_, ?_⟩ <;>
  · simp only [read_gas_concentration, calibrate_zero_point, calibrate_span_point,
      set_automatic_baseline_correction, set_detection_range, parse_payload_encode]
    rfl

/-- Witness for the amended C1 at device 1 and value 2000. -/
theorem roundtrip_amended_witness :
    (1 : Nat) < 256 ∧ (2000 : Nat) < 65536 ∧
    (parse_payload (read_gas_concentration 1)).map (fun l => (l.getD 0 0, l.getD 1 0)) =
      .ok (1, Command.ReadGasConcentration.get_command_value) :=
  ⟨by decide, by decide, (roundtrip_amended 1 2000 true (by decide) (by decide)).1⟩

/-- C4: `parse_payload` checks faults in a fixed order — wrong length first
(carrying the actual length), then wrong start byte (carrying byte0), then
wrong checksum (carrying computed then found), else success with bytes 1-7 —
and the three literal rejection vectors hold. -/
theorem parse_payload_error_order :
    (∀ p : List Nat, p.length ≠ 9 →
      parse_payload p = .error (.WrongPacketLength p.length)) ∧
    (∀ p : List Nat, p.length = 9 → p.headD 0 ≠ 0xFF →
      parse_payload p = .error (.WrongStartByte (p.headD 0))) ∧
    (∀ p : List Nat, p.length = 9 → p.headD 0 = 0xFF →
      p.getD 8 0 ≠ checksum ((p.drop 1).take 7) →
      parse_payload p =
        .error (.WrongChecksum (checksum ((p.drop 1).take 7)) (p.getD 8 0))) ∧
    (∀ p : List Nat, p.length = 9 → p.headD 0 = 0xFF →
      p.getD 8 0 = checksum ((p.drop 1).take 7) →
      parse_payload p = .ok ((p.drop 1).take 7)) ∧
    parse_payload [] = .error (.WrongPacketLength 0) ∧
    parse_payload [12] = .error (.WrongPacketLength 1) ∧
    parse_payload [0xFF, 2, 3, 4, 5, 6, 7, 8, 9] = .error (.WrongChecksum 221 9) := by
  refine ⟨?_, ?_, ?_, ?_, by rfl, by rfl, by rfl⟩
  · intro p h1
    simp [parse_payload, h1]
  · intro p h1 h2
    obtain ⟨a, b, c, d, e, f, g, h, i, rfl⟩ := exists_nine p h1
    simp only [List.headD] at h2 ⊢
    rw [parse_payload_nine, if_pos h2]
  · intro p h1 h2 h3
    obtain ⟨a, b, c, d, e, f, g, h, i, rfl⟩ := exists_nine p h1
    simp only [List.headD] at h2
    subst h2
    simp at h3 ⊢
    rw [parse_payload_nine]
    simp [h3]
  · intro p h1 h2 h3
    obtain ⟨a, b, c, d, e, f, g, h, i, rfl⟩ := exists_nine p h1
    simp only [List.headD] at h2
    subst h2
    simp at h3 ⊢
    rw [parse_payload_nine]
    simp [h3]

/-- C5: `parse_gas_contentration_ppm` delegates to `parse_payload` and
propagates its errors unchanged; when parsing succeeds with a payload whose
byte0 is not 0x86 it fails with `WrongPacketType 0x86 byte0`; otherwise it
returns `256 * payload[1] + payload[2]`, which for byte-valued buffers is
below 65536. -/
theorem parse_gas_spec :
    (∀ (p : List Nat) (e : MHZ19Error), parse_payload p = .error e →
      parse_gas_contentration_ppm p = .error e) ∧
    (∀ (p payload : List Nat), parse_payload p = .ok payload →
      payload.headD 0 ≠ 0x86 →
      parse_gas_contentration_ppm p =
        .error (.WrongPacketType 0x86 (payload.headD 0))) ∧
    (∀ (p payload : List Nat), (∀ x ∈ p, x < 256) →
      parse_payload p = .ok payload → payload.headD 0 = 0x86 →
      parse_gas_contentration_ppm p =
        .ok (256 * payload.getD 1 0 + payload.getD 2 0) ∧
      256 * payload.getD 1 0 + payload.getD 2 0 < 65536) := by
  refine ⟨?_, ?_, ?_⟩
  · intro p e h
    simp [parse_gas_contentration_ppm, h]
  · intro p payload h1 h2
    have h9 := parse_payload_ok_length p payload h1
    obtain ⟨a, b, c, d, e, f, g, h, i, rfl⟩ := exists_nine p h9
    have hpl : payload = [b, c, d, e, f, g, h] := by
      simpa using parse_payload_ok_eq _ _ h1
    subst hpl
    simp only [List.headD] at h2 ⊢
    simp [parse_gas_contentration_ppm, h1, h2, Command.get_command_value]
  · intro p payload h256 h1 h2
    have h9 := parse_payload_ok_length p payload h1
    obtain ⟨a, b, c, d, e, f, g, h, i, rfl⟩ := exists_nine p h9
    have hpl : payload = [b, c, d, e, f, g, h] := by
      simpa using parse_payload_ok_eq _ _ h1
    subst hpl
    simp only [List.headD] at h2
    subst h2
    have hc : c < 256 := h256 c (by simp)
    have hd : d < 256 := h256 d (by simp)
    refine ⟨?_, by simp [List.getD]; omega⟩
    simp [parse_gas_contentration_ppm, h1, Command.get_command_value,
      List.getD]

/-- C6: for every input buffer of any length the decoders are total: they
return a `Result` for every input, and every buffer access the Rust code
performs by indexing is in bounds. The bounds-checked variants, which return
`none` exactly where Rust indexing would panic, agree with the embedded
decoders on every input, so no out-of-bounds access is ever reached: the
length-9 check fires before any index is used. -/
theorem parse_total_no_oob :
    ∀ p : List Nat,
      parse_payload_checked p = some (parse_payload p) ∧
      parse_gas_contentration_ppm_checked p = some (parse_gas_contentration_ppm p) := by
  intro p
  by_cases h9 : p.length = 9
  · obtain ⟨a, b, c, d, e, f, g, h, i, rfl⟩ := exists_nine p h9
    have hpc : parse_payload_checked [a, b, c, d, e, f, g, h, i] =
        some (parse_payload [a, b, c, d, e, f, g, h, i]) := by
      by_cases ha : a = 0xFF
      · by_cases hi : i = checksum [b, c, d, e, f, g, h]
        · simp [parse_payload_checked, parse_payload_nine, ha, hi]
        · simp [parse_payload_checked, parse_payload_nine, ha, hi]
      · simp [parse_payload_checked, parse_payload_nine, ha]
    refine ⟨hpc, ?_⟩
    rcases hpp : parse_payload [a, b, c, d, e, f, g, h, i] with e0 | payload
    · simp [parse_gas_contentration_ppm_checked, parse_gas_contentration_ppm,
        hpc, hpp]
    · have hpl : payload = [b, c, d, e, f, g, h] := by
        simpa using parse_payload_ok_eq _ _ hpp
      subst hpl
      by_cases hb : b = 0x86
      · subst hb
        simp [parse_gas_contentration_ppm_checked, parse_gas_contentration_ppm,
          hpc, hpp, Command.get_command_value, List.getD]
      · simp [parse_gas_contentration_ppm_checked, parse_gas_contentration_ppm,
          hpc, hpp, hb, Command.get_command_value, List.getD]
  · constructor
    · simp [parse_payload_checked, parse_payload, h9]
    · simp [parse_gas_contentration_ppm_checked, parse_gas_contentration_ppm,
        parse_payload_checked, parse_payload, h9]

/-- C9: for every 7-byte span the wrapping byte sum plus the checksum is
congruent to 0 modulo 256; consequently bytes 1 through 8 of every buffer
accepted by `parse_payload` sum to 0 modulo 256. -/
theorem checksum_additive_inverse :
    (∀ s : List Nat, s.length = 7 → (s.foldl wadd8 0 + checksum s) % 256 = 0) ∧
    (∀ p payload : List Nat, parse_payload p = .ok payload →
      ((p.drop 1).take 8).sum % 256 = 0) := by
  constructor
  · intro s hs
    have h1 := foldl_wadd8 s 0
    simp only [Nat.zero_mod, Nat.zero_add] at h1
    rw [h1, checksum_eq_sum]
    omega
  · intro p payload hok
    have h9 := parse_payload_ok_length p payload hok
    have hck := parse_payload_ok_checksum p payload hok
    obtain ⟨a, b, c, d, e, f, g, h, i, rfl⟩ := exists_nine p h9
    simp at hck ⊢
    have hs := sum_add_checksum [b, c, d, e, f, g, h]
    simp at hs
    omega

/-- C10: the result of `parse_payload` is either a successful payload of
exactly 7 bytes (bytes 1 through 7 of the input, unmodified) or one of the
errors `WrongPacketLength`, `WrongStartByte`, `WrongChecksum`; it never
produces `WrongPacketType`. -/
theorem parse_payload_shape :
    (∀ p : List Nat,
      (parse_payload p = .ok ((p.drop 1).take 7) ∧ ((p.drop 1).take 7).length = 7) ∨
      parse_payload p = .error (.WrongPacketLength p.length) ∨
      parse_payload p = .error (.WrongStartByte (p.headD 0)) ∨
      parse_payload p =
        .error (.WrongChecksum (checksum ((p.drop 1).take 7)) (p.getD 8 0))) ∧
    (∀ (p : List Nat) (x y : Nat),
      parse_payload p ≠ .error (.WrongPacketType x y)) := by
  have key : ∀ p : List Nat,
      (parse_payload p = .ok ((p.drop 1).take 7) ∧ ((p.drop 1).take 7).length = 7) ∨
      parse_payload p = .error (.WrongPacketLength p.length) ∨
      parse_payload p = .error (.WrongStartByte (p.headD 0)) ∨
      parse_payload p =
        .error (.WrongChecksum (checksum ((p.drop 1).take 7)) (p.getD 8 0)) := by
    intro p
    by_cases h9 : p.length = 9
    · obtain ⟨a, b, c, d, e, f, g, h, i, rfl⟩ := exists_nine p h9
      by_cases ha : a = 0xFF
      · by_cases hi : i = checksum [b, c, d, e, f, g, h]
        · left
          refine ⟨?_, by simp⟩
          rw [parse_payload_nine]
          simp [ha, hi]
        · right; right; right
          rw [parse_payload_nine]
          simp [ha, hi]
      · right; right; left
        rw [parse_payload_nine]
        simp [ha]
    · right; left
      simp [parse_payload, h9]
  refine ⟨key, ?_⟩
  intro p x y hcontra
  rcases key p with ⟨h1, _⟩ | h1 | h1 | h1 <;> rw [h1] at hcontra <;> simp at hcontra

end MHZ19
